/-
  Verification development for the Image-processing-api repository
  (src/server.js), a Node/Express service that accepts an uploaded raster
  image, converts it to grayscale by channel averaging, stores the encoded
  result under a derived name in a flat `outputs` directory, and offers
  listing and download endpoints.

  The JavaScript source is shallowly embedded below.  Bytes are modelled as
  natural numbers, pixel data as a flat list in (R,G,B,A) order exactly as
  an ImageData buffer, directories as finite maps from names (or normalized
  path-segment lists) to byte contents, and the external canvas library
  (image decoding and PNG encoding) as an oracle environment.  String
  manipulation (split, extname, toLowerCase, the regex tests) is embedded
  as structurally recursive functions on the character lists underlying
  Lean strings, so every definition evaluates inside the kernel.
-/
import Mathlib

namespace ImageApi

/-! ### Pixel data and the grayscale loop -/

/-- A byte sequence (file contents, encoded image bytes). -/
abbrev Bytes := List Nat

/-- In-memory decoded raster: `data` is the flat ImageData array in
(R,G,B,A) channel order, 8 bits per channel, length `width*height*4`. -/
structure PixelBuffer where
  width : Nat
  height : Nat
  data : List Nat
  deriving Repr, DecidableEq

/-- ECMAScript `ToUint8Clamp`: the conversion applied when a number is
assigned into a `Uint8ClampedArray` (such as `imageData.data`).  Clamps to
[0,255] and rounds to the nearest integer, ties to even.  The JavaScript
source computes `(data[i] + data[i+1] + data[i+2]) / 3` in floating point;
for byte inputs the exact rational value has fractional part 0, 1/3 or 2/3,
far from every tie, so the double-precision rounding error (below 2^-40)
never moves the value across a rounding boundary, and converting the exact
rational below yields the byte the JavaScript assignment stores. -/
def toUint8Clamp (q : ℚ) : Nat :=
  if q ≤ 0 then 0
  else if 255 ≤ q then 255
  else if ((⌊q⌋.toNat : ℚ)) + 1/2 < q then ⌊q⌋.toNat + 1
  else if q < ((⌊q⌋.toNat : ℚ)) + 1/2 then ⌊q⌋.toNat
  else if ⌊q⌋.toNat % 2 = 1 then ⌊q⌋.toNat + 1 else ⌊q⌋.toNat

/-- The per-pixel grayscale value: `const avg = (data[i] + data[i+1] +
data[i+2]) / 3` followed by assignment into the `Uint8ClampedArray`. -/
def gsAvg (r g b : Nat) : Nat :=
  toUint8Clamp (((r : ℚ) + g + b) / 3)

/-- The loop `for (let i = 0; i < data.length; i += 4)` of `processImage`:
each 4-byte pixel (r,g,b,a) becomes (avg,avg,avg,a), where all three
original channels are read before any is written. -/
def grayscaleData : List Nat → List Nat
  | r :: g :: b :: a :: rest =>
      gsAvg r g b :: gsAvg r g b :: gsAvg r g b :: a :: grayscaleData rest
  | l => l

/-- The pixel-level transform of `processImage` (lines 66–71 of
src/server.js) applied to a decoded buffer. -/
def grayscale (buf : PixelBuffer) : PixelBuffer :=
  { buf with data := grayscaleData buf.data }

/-- The four channels of pixel `i` of a flat ImageData array:
`(data[4i], data[4i+1], data[4i+2], data[4i+3])`, when all exist. -/
def pixelAt (d : List Nat) (i : Nat) : Option (Nat × Nat × Nat × Nat) :=
  match d.get? (4*i), d.get? (4*i+1), d.get? (4*i+2), d.get? (4*i+3) with
  | some r, some g, some b, some a => some (r, g, b, a)
  | _, _, _, _ => none

/-! ### Character-list string primitives

JavaScript string operations used by the server, written as structural
recursions over the character list of a Lean string. -/

/-- Is `pat` a prefix of `l`? -/
def isPrefixOfData : List Char → List Char → Bool
  | [], _ => true
  | _ :: _, [] => false
  | x :: xs, y :: ys => x = y && isPrefixOfData xs ys

/-- Does `pat` occur contiguously anywhere in the list? -/
def containsSeq (pat : List Char) : List Char → Bool
  | [] => isPrefixOfData pat []
  | y :: ys => isPrefixOfData pat (y :: ys) || containsSeq pat ys

/-- Is `pat` a suffix of `l`? -/
def isSuffixOfData (pat l : List Char) : Bool :=
  isPrefixOfData pat.reverse l.reverse

/-- The prefix of the list before the first occurrence of `c`. -/
def takeUntilChar (c : Char) : List Char → List Char
  | [] => []
  | x :: xs => if x = c then [] else x :: takeUntilChar c xs

/-- Split at every occurrence of `c` (JavaScript `s.split(c)`). -/
def splitChar (c : Char) : List Char → List (List Char)
  | [] => [[]]
  | x :: xs =>
    match splitChar c xs with
    | [] => [[]]
    | h :: t => if x = c then [] :: h :: t else (x :: h) :: t

/-- JavaScript `s.toLowerCase()` on the ASCII names that occur here. -/
def lowerStr (s : String) : String :=
  ⟨s.data.map Char.toLower⟩

/-! ### Filesystem, upload filter and route handlers -/

/-- A flat directory: a map from filename to file contents. -/
abbrev Dir := String → Option Bytes

/-- `fs.writeFileSync(name, content)`: creates the entry or silently
overwrites an existing one. -/
def writeFile (dir : Dir) (name : String) (content : Bytes) : Dir :=
  fun n => if n = name then some content else dir n

/-- `fs.unlinkSync(name)`. -/
def removeFile (dir : Dir) (name : String) : Dir :=
  fun n => if n = name then none else dir n

/-- Oracle for the external canvas library: `loadImage` (whose decoded
pixels `drawImage`/`getImageData` expose unchanged) and the PNG encoder
`canvas.toBuffer('image/png')`.  `none` models a thrown error; `writeOk`
tells whether `fs.writeFileSync` succeeds. -/
structure Env where
  loadImage : String → Option PixelBuffer
  toBuffer : PixelBuffer → Option Bytes
  writeOk : Bool

/-- The value returned by `processImage`: `{ success: true, message: ... }`
or `{ success: false, error: err.message }`, reduced to the flag. -/
structure ProcResult where
  success : Bool
  deriving Repr, DecidableEq

/-- `processImage(imagePath, outputPath)` (src/server.js lines 55–81):
decode the staged file, apply the grayscale loop to its pixel data,
re-encode as PNG, `writeFileSync` into the outputs directory.  Any stage's
thrown error is caught and returned as `success: false`, leaving the
outputs directory unchanged. -/
def processImage (env : Env) (outputs : Dir) (imagePath outputPath : String) :
    ProcResult × Dir :=
  match env.loadImage imagePath with
  | none => (⟨false⟩, outputs)
  | some img =>
    match env.toBuffer (grayscale img) with
    | none => (⟨false⟩, outputs)
    | some buffer =>
      if env.writeOk then (⟨true⟩, writeFile outputs outputPath buffer)
      else (⟨false⟩, outputs)

/-- Server-side mutable filesystem state: the `uploads` staging directory
and the `outputs` store directory. -/
structure ServerState where
  uploads : Dir
  outputs : Dir

/-- The JSON answer of the POST handler, reduced to the fields the claims
mention. -/
structure ApiResponse where
  status : Nat
  success : Bool
  filename : Option String
  deriving Repr, DecidableEq

/-- `s.split('.')[0]`: the prefix of `s` before its first dot (all of `s`
when it has no dot). -/
def splitDotHead (s : String) : String :=
  ⟨takeUntilChar '.' s.data⟩

/-- Multer's staged filename: `Date.now() + '-' + file.originalname`
(line 26). -/
def uploadStoredFilename (now : Nat) (originalname : String) : String :=
  toString now ++ "-" ++ originalname

/-- The derived output name
`` `processed-${req.file.filename.split('.')[0]}.png` `` (line 105). -/
def outputFilenameOf (uploadFilename : String) : String :=
  "processed-" ++ splitDotHead uploadFilename ++ ".png"

/-- The POST /api/process-image handler (lines 95–135) from the point
where multer has staged the upload under `uploadFilename`: derive the
output name, run `processImage`; on success `unlinkSync` the staged upload
and answer 200, on failure answer 500 leaving the staged upload in
place. -/
def postProcessImage (env : Env) (st : ServerState) (uploadFilename : String) :
    ApiResponse × ServerState :=
  let inputPath := "uploads/" ++ uploadFilename
  let outputFilename := outputFilenameOf uploadFilename
  let pr := processImage env st.outputs inputPath outputFilename
  if pr.1.success then
    (⟨200, true, some outputFilename⟩,
      ⟨removeFile st.uploads uploadFilename, pr.2⟩)
  else
    (⟨500, false, none⟩, ⟨st.uploads, pr.2⟩)

/-- `/jpeg|jpg|png|gif/.test(s)` (line 33): the regex is unanchored, so it
tests whether `s` CONTAINS one of the four literals anywhere. -/
def allowedTypesTest (s : String) : Bool :=
  containsSeq "jpeg".data s.data || containsSeq "jpg".data s.data ||
    containsSeq "png".data s.data || containsSeq "gif".data s.data

/-- Node's `path.extname`: the suffix of the name from its last dot;
empty when there is no dot or the only dot is the leading character. -/
def extname (s : String) : String :=
  let rl := s.data.reverse
  let pre := rl.takeWhile (fun c => c != '.')
  if pre.length = rl.length then ""
  else if s.data.length = pre.length + 1 then ""
  else ⟨'.' :: pre.reverse⟩

/-- The multer `fileFilter` (lines 32–42): accept iff the lowercased
extension passes `allowedTypesTest` and the declared mimetype passes it
too; the two are tested independently, each against the same pattern. -/
def fileFilter (originalname mimetype : String) : Bool :=
  allowedTypesTest (lowerStr (extname originalname)) &&
    allowedTypesTest mimetype

/-- One full POST /api/process-image request from multer's `fileFilter`
onward.  The final component reports whether image decoding (`loadImage`)
was attempted: when the filter rejects, multer aborts with "Only image
files are allowed!", the handler never runs, and no decode happens. -/
def handleUpload (env : Env) (st : ServerState) (now : Nat)
    (originalname mimetype : String) (body : Bytes) :
    ApiResponse × ServerState × Bool :=
  if fileFilter originalname mimetype then
    let uploadFilename := uploadStoredFilename now originalname
    let st1 : ServerState := ⟨writeFile st.uploads uploadFilename body, st.outputs⟩
    let r := postProcessImage env st1 uploadFilename
    (r.1, r.2, true)
  else
    (⟨500, false, none⟩, st, false)

/-- One step of Node `path.normalize` segment resolution: drop empty and
`.` segments, let `..` pop the previous segment when there is one. -/
def normStep (stack : List String) (seg : String) : List String :=
  if seg = "" ∨ seg = "." then stack
  else if seg = ".." then
    match stack with
    | [] => [".."]
    | top :: rest => if top = ".." then seg :: stack else rest
  else seg :: stack

/-- `path.join(root, filename)` (line 165): concatenate the two relative
paths and normalize; the result is the segment list relative to the
process working directory. -/
def pathJoin (root filename : String) : List String :=
  ((root :: (splitChar '/' filename.data).map
      (fun l => (⟨l⟩ : String))).foldl normStep []).reverse

/-- Whether a normalized path lies under the `outputs` store root. -/
def underOutputs (p : List String) : Bool :=
  p.head? == some "outputs"

/-- Outcome of GET /api/download/:filename. -/
inductive DownloadResult where
  | file (path : List String) (content : Bytes)
  | notFound
  deriving Repr, DecidableEq

/-- GET /api/download/:filename (lines 162–181): join the filename request
parameter to the outputs root; if a file exists there (`fs.existsSync`),
serve it (`res.download`), else 404.  The joined path is used as-is: there
is no check that it stays under the root. -/
def getDownload (fs : List String → Option Bytes) (filename : String) :
    DownloadResult :=
  let filePath := pathJoin "outputs" filename
  match fs filePath with
  | some content => .file filePath content
  | none => .notFound

/-- What `readdirSync` plus `statSync` observe for one directory entry. -/
structure DirEntry where
  name : String
  birthtime : Nat
  deriving Repr, DecidableEq

/-- One element of the `images` array answered by GET /api/images. -/
structure ImageInfo where
  filename : String
  url : String
  created : Nat
  deriving Repr, DecidableEq

/-- The anchored case-insensitive test `/\.(jpg|jpeg|png|gif)$/i`
(line 142). -/
def hasRasterExt (name : String) : Bool :=
  let l := name.data.map Char.toLower
  isSuffixOfData ".jpg".data l || isSuffixOfData ".jpeg".data l ||
    isSuffixOfData ".png".data l || isSuffixOfData ".gif".data l

/-- GET /api/images (lines 138–159): `readdirSync` the outputs directory
(`none` models a thrown error), keep the entries with a raster extension,
and build `{filename, url, created}` per entry; a read failure becomes the
500 "Error reading image directory" answer. -/
def getImages (dirListing : Option (List DirEntry)) :
    Except String (List ImageInfo) :=
  match dirListing with
  | none => .error "Error reading image directory"
  | some files =>
      .ok ((files.filter (fun f => hasRasterExt f.name)).map
        (fun f => ⟨f.name, "/outputs/" ++ f.name, f.birthtime⟩))

/-! ### Concrete fixtures used by counterexamples and witnesses -/

/-- The empty directory. -/
def emptyDir : Dir := fun _ => none

/-- A server state with empty uploads and outputs directories. -/
def emptyState : ServerState := ⟨emptyDir, emptyDir⟩

/-- An environment in which decoding always fails. -/
def failEnv : Env := ⟨fun _ => none, fun _ => none, true⟩

/-- An environment in which every stage succeeds: every path decodes to a
1×1 buffer and encoding returns a fixed byte string. -/
def okEnv : Env := ⟨fun _ => some ⟨1, 1, []⟩, fun _ => some [9], true⟩

/-- Environment for replaying the C2 collision: the upload staged from
original name `a.png` decodes to a 1×1 image and the one staged from
`a.jpg` to a 2×1 image, and the encoder output records the width, so the
two stored byte strings differ. -/
def c2Env : Env :=
  ⟨fun p => if p = "uploads/1000-a.png" then some ⟨1, 1, []⟩ else some ⟨2, 1, []⟩,
    fun b => some [b.width], true⟩

/-- A filesystem whose only file is `secret`, OUTSIDE the `outputs` store
root (it sits next to the root, in the working directory). -/
def c5Fs : List String → Option Bytes :=
  fun p => if p = ["secret"] then some [7] else none

/-! ### Arithmetic characterization of the per-pixel rounding -/

/-- For a sum of bytes `n ≤ 765`, the Uint8ClampedArray conversion of
`n / 3` is exactly round-to-nearest, which equals `(n + 1) / 3` by
truncating natural division (ties never occur since `n/3` has fractional
part 0, 1/3 or 2/3). -/
theorem toUint8Clamp_div3 (n : Nat) (h : n ≤ 765) :
    toUint8Clamp ((n : ℚ) / 3) = (n + 1) / 3 := by
  unfold toUint8Clamp
  by_cases h0 : (n : ℚ) / 3 ≤ 0
  · have hn : n = 0 := by
      have h1 : (n : ℚ) ≤ 0 := by linarith
      have h2 : n ≤ 0 := by exact_mod_cast h1
      omega
    subst hn
    rw [if_pos h0]
  · rw [if_neg h0]
    by_cases h255 : (255 : ℚ) ≤ (n : ℚ) / 3
    · rw [if_pos h255]
      have h1 : (765 : ℚ) ≤ (n : ℚ) := by linarith
      have h2 : 765 ≤ n := by exact_mod_cast h1
      have hn : n = 765 := by omega
      subst hn
      norm_num
    · rw [if_neg h255]
      have hfl : ⌊(n : ℚ) / 3⌋ = ((n / 3 : ℕ) : ℤ) := by
        rw [show ((3 : ℚ)) = ((3 : ℕ) : ℚ) from by norm_num,
          Rat.floor_natCast_div_natCast]
        rw [Int.natCast_div]
      have hk : (⌊(n : ℚ) / 3⌋).toNat = n / 3 := by rw [hfl]; omega
      rw [hk]
      by_cases hA : (((n / 3 : ℕ) : ℚ)) + 1/2 < (n : ℚ) / 3
      · rw [if_pos hA]
        have h1 : (6 : ℚ) * ((n / 3 : ℕ) : ℚ) + 3 < 2 * n := by linarith
        have h2 : 6 * (n / 3) + 3 < 2 * n := by exact_mod_cast h1
        omega
      · rw [if_neg hA]
        by_cases hB : (n : ℚ) / 3 < (((n / 3 : ℕ) : ℚ)) + 1/2
        · rw [if_pos hB]
          have h1 : (2 : ℚ) * n < 6 * ((n / 3 : ℕ) : ℚ) + 3 := by linarith
          have h2 : 2 * n < 6 * (n / 3) + 3 := by exact_mod_cast h1
          omega
        · exfalso
          have h1 : (2 : ℚ) * n = 6 * ((n / 3 : ℕ) : ℚ) + 3 := by
            have hle := not_lt.mp hA
            have hge := not_lt.mp hB
            linarith
          have h2 : 2 * n = 6 * (n / 3) + 3 := by exact_mod_cast h1
          omega

/-- The Uint8ClampedArray conversion never exceeds 255. -/
theorem toUint8Clamp_le (q : ℚ) : toUint8Clamp q ≤ 255 := by
  unfold toUint8Clamp
  by_cases h0 : q ≤ 0
  · simp [h0]
  · rw [if_neg h0]
    by_cases h255 : (255 : ℚ) ≤ q
    · simp [h255]
    · rw [if_neg h255]
      have hfl : ⌊q⌋ < (255 : ℤ) := by
        rw [Int.floor_lt]
        push_cast
        linarith [not_le.mp h255]
      have hle : ⌊q⌋.toNat ≤ 254 := by omega
      by_cases hA : ((⌊q⌋.toNat : ℚ)) + 1/2 < q
      · rw [if_pos hA]; omega
      · rw [if_neg hA]
        by_cases hB : q < ((⌊q⌋.toNat : ℚ)) + 1/2
        · rw [if_pos hB]; omega
        · rw [if_neg hB]
          by_cases hC : ⌊q⌋.toNat % 2 = 1
          · rw [if_pos hC]; omega
          · rw [if_neg hC]; omega

/-- `gsAvg` in terms of truncating natural division: for bytes summing to
at most 765 it rounds the exact average to the nearest integer. -/
theorem gsAvg_eq (r g b : Nat) (h : r + g + b ≤ 765) :
    gsAvg r g b = (r + g + b + 1) / 3 := by
  unfold gsAvg
  have hcast : ((r : ℚ) + g + b) = ((r + g + b : ℕ) : ℚ) := by push_cast; ring
  rw [hcast, toUint8Clamp_div3 _ h]

/-- `gsAvg` always produces a byte value. -/
theorem gsAvg_le (r g b : Nat) : gsAvg r g b ≤ 255 :=
  toUint8Clamp_le _

/-- Averaging three equal byte values returns that value. -/
theorem gsAvg_self (v : Nat) (hv : v ≤ 255) : gsAvg v v v = v := by
  have h : v + v + v ≤ 765 := by omega
  rw [gsAvg_eq v v v h]
  omega

/-! ### Structural lemmas about the pixel loop -/

theorem pixelAt_zero (x y z w : Nat) (rest : List Nat) :
    pixelAt (x :: y :: z :: w :: rest) 0 = some (x, y, z, w) := by
  simp [pixelAt]

theorem pixelAt_succ (x y z w : Nat) (rest : List Nat) (i : Nat) :
    pixelAt (x :: y :: z :: w :: rest) (i + 1) = pixelAt rest i := by
  simp [pixelAt, Nat.mul_succ]

theorem grayscaleData_length (d : List Nat) :
    (grayscaleData d).length = d.length := by
  induction d using grayscaleData.induct <;> simp [grayscaleData, *]

/-- Pixel-level behaviour of the loop: every pixel `(r,g,b,a)` becomes
`(gsAvg r g b, gsAvg r g b, gsAvg r g b, a)`. -/
theorem grayscaleData_pixelAt (d : List Nat) (i r g b a : Nat)
    (h : pixelAt d i = some (r, g, b, a)) :
    pixelAt (grayscaleData d) i =
      some (gsAvg r g b, gsAvg r g b, gsAvg r g b, a) := by
  induction i generalizing d with
  | zero =>
    rcases d with _ | ⟨x, _ | ⟨y, _ | ⟨z, _ | ⟨w, rest⟩⟩⟩⟩
    · simp [pixelAt] at h
    · simp [pixelAt] at h
    · simp [pixelAt] at h
    · simp [pixelAt] at h
    · rw [pixelAt_zero] at h
      obtain ⟨rfl, rfl, rfl, rfl⟩ : x = r ∧ y = g ∧ z = b ∧ w = a := by
        simpa using h
      rw [grayscaleData, pixelAt_zero]
  | succ i ih =>
    rcases d with _ | ⟨x, _ | ⟨y, _ | ⟨z, _ | ⟨w, rest⟩⟩⟩⟩
    · simp [pixelAt] at h
    · simp [pixelAt, Nat.mul_succ] at h
    · simp [pixelAt, Nat.mul_succ] at h
    · simp [pixelAt, Nat.mul_succ] at h
    · rw [pixelAt_succ] at h
      rw [grayscaleData, pixelAt_succ]
      exact ih rest h

theorem grayscaleData_idem (d : List Nat) :
    grayscaleData (grayscaleData d) = grayscaleData d := by
  induction d using grayscaleData.induct with
  | case1 r g b a rest ih =>
    rw [grayscaleData, grayscaleData, ih, gsAvg_self _ (gsAvg_le r g b)]
  | case2 l hl =>
    have h1 : grayscaleData l = l := by
      rw [grayscaleData.eq_def]
      split
      · exact absurd rfl (hl _ _ _ _ _)
      · rfl
    rw [h1, h1]

/-! ### Claim theorems -/

/-- C1 counterexample: the original pixel (0,0,2,255) has
`floor((0+0+2)/3) = 0`, but the code stores 1 in each color channel: the
JavaScript division is floating point and the Uint8ClampedArray assignment
rounds to nearest, it does not truncate. -/
theorem C1_counterexample :
    pixelAt (grayscale ⟨1, 1, [0, 0, 2, 255]⟩).data 0 = some (1, 1, 1, 255) ∧
      (0 + 0 + 2) / 3 ≠ 1 := by
  have h : gsAvg 0 0 2 = 1 := by rw [gsAvg_eq 0 0 2 (by omega)]
  constructor
  · show pixelAt (grayscaleData [0, 0, 2, 255]) 0 = some (1, 1, 1, 255)
    rw [grayscaleData, h, pixelAt_zero]
  · decide

/-- C1 (amended): for every pixel of a PixelBuffer with byte-valued
channels, after the grayscale transform the R, G and B channels all equal
the round-to-nearest value of (R0+G0+B0)/3 — the floating-point average
as stored through the Uint8ClampedArray, equal to `(R0+G0+B0+1)/3` by
truncating division — computed from the pixel's original channels (all
three read before any is written), and the alpha channel is unchanged. -/
theorem C1_grayscale_pixel (buf : PixelBuffer) (i r0 g0 b0 a0 : Nat)
    (h : pixelAt buf.data i = some (r0, g0, b0, a0))
    (hr : r0 ≤ 255) (hg : g0 ≤ 255) (hb : b0 ≤ 255) :
    pixelAt (grayscale buf).data i =
      some ((r0 + g0 + b0 + 1) / 3, (r0 + g0 + b0 + 1) / 3,
        (r0 + g0 + b0 + 1) / 3, a0) := by
  have hp := grayscaleData_pixelAt buf.data i r0 g0 b0 a0 h
  rw [gsAvg_eq r0 g0 b0 (by omega)] at hp
  exact hp

/-- Witness for C1: the 1×1 buffer with pixel (10,20,33,7) maps to
(21,21,21,7). -/
theorem C1_grayscale_pixel_witness :
    pixelAt (grayscale ⟨1, 1, [10, 20, 33, 7]⟩).data 0 = some (21, 21, 21, 7) := by
  have h := C1_grayscale_pixel ⟨1, 1, [10, 20, 33, 7]⟩ 0 10 20 33 7
    (by decide) (by decide) (by decide) (by decide)
  simpa using h

/-- C3: the grayscale transform is idempotent: applying it twice yields
the same buffer as applying it once. -/
theorem C3_grayscale_idempotent (buf : PixelBuffer) :
    grayscale (grayscale buf) = grayscale buf := by
  unfold grayscale
  simp [grayscaleData_idem]

/-- C9: the grayscale transform preserves the buffer invariant: width and
height are unchanged, the data length still equals width*height*4, and in
the fixed (R,G,B,A) channel order the alpha channel of every pixel is
preserved in place. -/
theorem C9_grayscale_invariant (buf : PixelBuffer)
    (h : buf.data.length = buf.width * buf.height * 4) :
    (grayscale buf).width = buf.width ∧
    (grayscale buf).height = buf.height ∧
    (grayscale buf).data.length =
      (grayscale buf).width * (grayscale buf).height * 4 ∧
    ∀ i r0 g0 b0 a0, pixelAt buf.data i = some (r0, g0, b0, a0) →
      ∃ v, pixelAt (grayscale buf).data i = some (v, v, v, a0) := by
  refine ⟨rfl, rfl, ?_, ?_⟩
  · show (grayscaleData buf.data).length = buf.width * buf.height * 4
    rw [grayscaleData_length, h]
  · intro i r0 g0 b0 a0 hp
    exact ⟨gsAvg r0 g0 b0, grayscaleData_pixelAt _ _ _ _ _ _ hp⟩

/-- Witness for C9 at a concrete 1×1 buffer. -/
theorem C9_grayscale_invariant_witness :
    (grayscale ⟨1, 1, [1, 2, 3, 4]⟩).width = 1 ∧
    (grayscale ⟨1, 1, [1, 2, 3, 4]⟩).height = 1 ∧
    (grayscale ⟨1, 1, [1, 2, 3, 4]⟩).data.length =
      (grayscale ⟨1, 1, [1, 2, 3, 4]⟩).width *
        (grayscale ⟨1, 1, [1, 2, 3, 4]⟩).height * 4 ∧
    ∀ i r0 g0 b0 a0,
      pixelAt (PixelBuffer.mk 1 1 [1, 2, 3, 4]).data i = some (r0, g0, b0, a0) →
      ∃ v, pixelAt (grayscale ⟨1, 1, [1, 2, 3, 4]⟩).data i = some (v, v, v, a0) :=
  C9_grayscale_invariant ⟨1, 1, [1, 2, 3, 4]⟩ (by decide)

/-- Failure of any stage of `processImage` leaves the outputs directory
untouched. -/
theorem processImage_fail (env : Env) (outputs : Dir) (ip op : String)
    (h : (processImage env outputs ip op).1.success = false) :
    (processImage env outputs ip op).2 = outputs := by
  cases hL : env.loadImage ip with
  | none => simp [processImage, hL]
  | some img =>
    cases hB : env.toBuffer (grayscale img) with
    | none => simp [processImage, hL, hB]
    | some buffer =>
      by_cases hW : env.writeOk
      · exfalso
        simp [processImage, hL, hB, hW] at h
      · simp [processImage, hL, hB, hW]

/-- C4: when the POST /api/process-image pipeline returns a failure, no
new StoredOutput entry exists: the outputs store is unchanged by the
failed call. -/
theorem C4_no_partial_output (env : Env) (st : ServerState)
    (uploadFilename : String)
    (h : (postProcessImage env st uploadFilename).1.success = false) :
    (postProcessImage env st uploadFilename).2.outputs = st.outputs := by
  unfold postProcessImage at h ⊢
  by_cases hs : (processImage env st.outputs ("uploads/" ++ uploadFilename)
      (outputFilenameOf uploadFilename)).1.success
  · rw [if_pos hs] at h
    simp at h
  · rw [if_neg hs]
    exact processImage_fail env st.outputs _ _ (Bool.eq_false_iff.mpr hs)

/-- Witness for C4: with an always-failing decoder the outputs store is
unchanged. -/
theorem C4_no_partial_output_witness :
    (postProcessImage failEnv emptyState "u").2.outputs = emptyState.outputs :=
  C4_no_partial_output failEnv emptyState "u" rfl

/-- C10: starting from a staged upload, the staged file is deleted iff the
pipeline succeeds: deleted before the success answer, left in place on any
failure. -/
theorem C10_upload_cleanup (env : Env) (st : ServerState)
    (uploadFilename : String) (body : Bytes)
    (h : st.uploads uploadFilename = some body) :
    ((postProcessImage env st uploadFilename).1.success = true →
      (postProcessImage env st uploadFilename).2.uploads uploadFilename = none) ∧
    ((postProcessImage env st uploadFilename).1.success = false →
      (postProcessImage env st uploadFilename).2.uploads uploadFilename = some body) := by
  unfold postProcessImage
  by_cases hs : (processImage env st.outputs ("uploads/" ++ uploadFilename)
      (outputFilenameOf uploadFilename)).1.success
  · rw [if_pos hs]
    constructor
    · intro _
      simp [removeFile]
    · intro hcon
      simp at hcon
  · rw [if_neg hs]
    constructor
    · intro hcon
      simp [Bool.eq_false_iff.mpr hs] at hcon
    · intro _
      exact h

/-- Witness for C10: a staged upload is removed on success and kept on
failure. -/
theorem C10_upload_cleanup_witness :
    (((postProcessImage okEnv ⟨writeFile emptyDir "u" [1], emptyDir⟩ "u").1.success = true →
      (postProcessImage okEnv ⟨writeFile emptyDir "u" [1], emptyDir⟩ "u").2.uploads "u" = none) ∧
    ((postProcessImage okEnv ⟨writeFile emptyDir "u" [1], emptyDir⟩ "u").1.success = false →
      (postProcessImage okEnv ⟨writeFile emptyDir "u" [1], emptyDir⟩ "u").2.uploads "u" = some [1])) ∧
    ((postProcessImage failEnv ⟨writeFile emptyDir "u" [1], emptyDir⟩ "u").1.success = false →
      (postProcessImage failEnv ⟨writeFile emptyDir "u" [1], emptyDir⟩ "u").2.uploads "u" = some [1]) :=
  ⟨C10_upload_cleanup okEnv ⟨writeFile emptyDir "u" [1], emptyDir⟩ "u" [1] rfl,
    (C10_upload_cleanup failEnv ⟨writeFile emptyDir "u" [1], emptyDir⟩ "u" [1] rfl).2⟩

/-- C2 (code bug): two uploads in the same `Date.now()` millisecond whose
original names share the stem before the first dot (here `a.png` and
`a.jpg` at t=1000) derive the SAME output filename, and the second
`writeFileSync` silently overwrites the first stored entry — no collision
check or re-derivation exists.  The first upload decodes to a 1×1 image
(encoded as [1]), the second to a 2×1 image (encoded as [2]); after the
second request the single entry holds [2] and the first result is lost. -/
theorem C2_overwrite :
    outputFilenameOf (uploadStoredFilename 1000 "a.png") =
      outputFilenameOf (uploadStoredFilename 1000 "a.jpg") ∧
    (handleUpload c2Env emptyState 1000 "a.png" "image/png" [7]).2.1.outputs
      "processed-1000-a.png" = some [1] ∧
    (handleUpload c2Env
        (handleUpload c2Env emptyState 1000 "a.png" "image/png" [7]).2.1
        1000 "a.jpg" "image/jpeg" [8]).2.1.outputs
      "processed-1000-a.png" = some [2] := by
  refine ⟨by decide, by decide, by decide⟩

/-- C5 counterexample: on a filesystem whose only file is `secret`,
sitting OUTSIDE the `outputs` root, the request filename `../secret`
names no entry under the root, yet the download handler serves the file
outside the root instead of answering NotFound: `path.join` resolves the
`..` and nothing rejects the traversal. -/
theorem C5_counterexample :
    pathJoin "outputs" "../secret" = ["secret"] ∧
    underOutputs ["secret"] = false ∧
    c5Fs ["outputs", "../secret"] = none ∧
    getDownload c5Fs "../secret" = .file ["secret"] [7] := by
  refine ⟨by decide, by decide, by decide, by decide⟩

/-- C5 (amended): the download handler returns NotFound exactly when no
file exists at `path.join('outputs', filename)`, and otherwise serves the
file at that joined path; no traversal check is made, so a filename with
`..` segments resolves outside the store root and such a file is
served. -/
theorem C5_download (fs : List String → Option Bytes) (filename : String) :
    (fs (pathJoin "outputs" filename) = none →
      getDownload fs filename = .notFound) ∧
    ∀ c, fs (pathJoin "outputs" filename) = some c →
      getDownload fs filename = .file (pathJoin "outputs" filename) c := by
  constructor
  · intro h
    simp only [getDownload]
    rw [h]
  · intro c h
    simp only [getDownload]
    rw [h]

/-- Witness for C5: a missing file yields NotFound, a present one is
served. -/
theorem C5_download_witness :
    getDownload (fun _ => none) "a.png" = .notFound ∧
    getDownload (fun p => if p = ["outputs", "a.png"] then some [3] else none)
      "a.png" = .file ["outputs", "a.png"] [3] :=
  ⟨(C5_download (fun _ => none) "a.png").1 rfl,
    (C5_download (fun p => if p = ["outputs", "a.png"] then some [3] else none)
      "a.png").2 [3] (by decide)⟩

/-- C6 counterexample: declared extension `.apng` and MIME `image/apng`
are both outside the accepted set {jpeg, jpg, png, gif}, yet the filter
accepts the upload (the regex `/jpeg|jpg|png|gif/` is an unanchored
substring test and `.apng` contains `png`) and decoding is attempted. -/
theorem C6_counterexample :
    extname "x.apng" = ".apng" ∧
    (".apng" : String) ∉ ([".jpeg", ".jpg", ".png", ".gif"] : List String) ∧
    ("image/apng" : String) ∉
      (["image/jpeg", "image/jpg", "image/png", "image/gif"] : List String) ∧
    fileFilter "x.apng" "image/apng" = true ∧
    (handleUpload failEnv emptyState 1000 "x.apng" "image/apng" [0]).2.2 = true := by
  refine ⟨by decide, by decide, by decide, by decide, by decide⟩

/-- C6 (amended): an upload whose lowercased declared extension does not
CONTAIN any of jpeg/jpg/png/gif as a substring, or whose declared MIME
type does not, is rejected by the filter before any decode is attempted,
with the server state unchanged (acceptance is substring containment, not
exact membership in the accepted set). -/
theorem C6_reject_no_decode (env : Env) (st : ServerState) (now : Nat)
    (originalname mimetype : String) (body : Bytes)
    (h : allowedTypesTest (lowerStr (extname originalname)) = false ∨
      allowedTypesTest mimetype = false) :
    handleUpload env st now originalname mimetype body =
      (⟨500, false, none⟩, st, false) := by
  have hf : fileFilter originalname mimetype = false := by
    unfold fileFilter
    rcases h with h | h <;> simp [h]
  unfold handleUpload
  simp [hf]

/-- Witness for C6: a `.txt` upload with MIME `text/plain` is rejected
without decode. -/
theorem C6_reject_no_decode_witness :
    handleUpload failEnv emptyState 1000 "a.txt" "text/plain" [0] =
      (⟨500, false, none⟩, emptyState, false) :=
  C6_reject_no_decode failEnv emptyState 1000 "a.txt" "text/plain" [0]
    (Or.inl (by decide))

/-- C7 counterexample: extension `.png` and MIME `image/jpeg` disagree
about the format, yet the filter accepts the upload and decode is
attempted: each of the two is tested independently against the pattern and
no cross-check between them exists. -/
theorem C7_counterexample :
    extname "a.png" = ".png" ∧
    ("image/jpeg" : String) ≠ "image/png" ∧
    fileFilter "a.png" "image/jpeg" = true ∧
    (handleUpload failEnv emptyState 1000 "a.png" "image/jpeg" [0]).2.2 = true := by
  refine ⟨by decide, by decide, by decide, by decide⟩

/-- C7 (amended): the declared extension and MIME type are validated
independently, each against `/jpeg|jpg|png|gif/`, with no cross-check of
one against the other: whenever both pass the pattern the upload is
accepted and decode is attempted, even when the two disagree about the
format; a pair is rejected only when one of them fails the pattern. -/
theorem C7_no_crosscheck (env : Env) (st : ServerState) (now : Nat)
    (originalname mimetype : String) (body : Bytes)
    (he : allowedTypesTest (lowerStr (extname originalname)) = true)
    (hm : allowedTypesTest mimetype = true) :
    (handleUpload env st now originalname mimetype body).2.2 = true := by
  have hf : fileFilter originalname mimetype = true := by
    unfold fileFilter
    rw [he, hm]
    rfl
  unfold handleUpload
  simp [hf]

/-- Witness for C7 at the mismatched pair `.png` extension with
`image/jpeg` MIME. -/
theorem C7_no_crosscheck_witness :
    (handleUpload failEnv emptyState 1000 "a.png" "image/jpeg" [0]).2.2 = true :=
  C7_no_crosscheck failEnv emptyState 1000 "a.png" "image/jpeg" [0]
    (by decide) (by decide)

/-- C8: listing fidelity: when the directory read fails the handler
answers the StoreUnavailable error, and otherwise the returned list holds
exactly the directory entries whose name has an accepted raster extension
(jpg/jpeg/png/gif, case-insensitive), no more and no less, each carrying
its filename, the derived `/outputs/` URL, and its creation time. -/
theorem C8_listing (dirListing : Option (List DirEntry)) :
    (dirListing = none →
      getImages dirListing = .error "Error reading image directory") ∧
    ∀ files, dirListing = some files →
      ∃ infos, getImages dirListing = .ok infos ∧
        (∀ name, (∃ info ∈ infos, info.filename = name) ↔
          ∃ e ∈ files, e.name = name ∧ hasRasterExt e.name = true) ∧
        (∀ info ∈ infos, info.url = "/outputs/" ++ info.filename ∧
          ∃ e ∈ files, e.name = info.filename ∧ e.birthtime = info.created) := by
  constructor
  · intro h
    rw [h]
    rfl
  · intro files h
    subst h
    refine ⟨_, rfl, ?_, ?_⟩
    · intro name
      constructor
      · rintro ⟨info, hmem, rfl⟩
        simp only [List.mem_map, List.mem_filter] at hmem
        obtain ⟨e, ⟨hef, hre⟩, rfl⟩ := hmem
        exact ⟨e, hef, rfl, hre⟩
      · rintro ⟨e, hef, rfl, hre⟩
        refine ⟨⟨e.name, "/outputs/" ++ e.name, e.birthtime⟩, ?_, rfl⟩
        simp only [List.mem_map, List.mem_filter]
        exact ⟨e, ⟨hef, hre⟩, rfl⟩
    · intro info hmem
      simp only [List.mem_map, List.mem_filter] at hmem
      obtain ⟨e, ⟨hef, _⟩, rfl⟩ := hmem
      exact ⟨rfl, e, hef, rfl, rfl⟩

/-- Witness for C8: a failing directory read, and a directory holding
`a.png` and `b.txt`. -/
theorem C8_listing_witness :
    getImages none = .error "Error reading image directory" ∧
    ∃ infos, getImages (some [⟨"a.png", 5⟩, ⟨"b.txt", 6⟩]) = .ok infos ∧
      (∀ name, (∃ info ∈ infos, info.filename = name) ↔
        ∃ e ∈ ([⟨"a.png", 5⟩, ⟨"b.txt", 6⟩] : List DirEntry),
          e.name = name ∧ hasRasterExt e.name = true) ∧
      (∀ info ∈ infos, info.url = "/outputs/" ++ info.filename ∧
        ∃ e ∈ ([⟨"a.png", 5⟩, ⟨"b.txt", 6⟩] : List DirEntry),
          e.name = info.filename ∧ e.birthtime = info.created) :=
  ⟨(C8_listing none).1 rfl,
    (C8_listing (some [⟨"a.png", 5⟩, ⟨"b.txt", 6⟩])).2
      [⟨"a.png", 5⟩, ⟨"b.txt", 6⟩] rfl⟩

end ImageApi
